import Mathlib

/-!
Shallow embedding of the roster-parsing pipeline of the
flights-schedule-app repository.

Lines of text are modelled as lists of characters (a Python string is a
sequence of characters; we write string literals and convert with
String.data).  The regular expressions used by the parser are fixed-format
patterns; each is embedded as a deterministic recursive matcher that is
extensionally equal to the Python regex on the pattern in question (the
character classes used by the patterns are ASCII: the \d class is embedded
as ASCII digits, [A-Za-z] as ASCII letters and \s as the six ASCII
whitespace characters recognised by the re module).
-/

namespace FlightsApp

/-- One ASCII whitespace character, as matched by the regex class \s. -/
def isSpaceChar (c : Char) : Bool :=
  c = ' ' || c = '\t' || c = '\n' || c = '\r' || c = '\x0b' || c = '\x0c'

/-- Boolean test that the first list is a prefix of the second
(pattern first, text second). -/
def startsWith : List Char → List Char → Bool
  | [], _ => true
  | _ :: _, [] => false
  | p :: ps, c :: cs => (p = c) && startsWith ps cs

/-- Boolean substring containment, embedding the Python expression
(pat in line).  The pattern argument comes first. -/
def hasSubstr (pat : List Char) : List Char → Bool
  | [] => startsWith pat []
  | c :: rest => startsWith pat (c :: rest) || hasSubstr pat rest

/-- Embedding of the Python str.split with an explicit single-space
separator: consecutive separators produce empty tokens and the empty
string splits to one empty token. -/
def splitOnSpace : List Char → List (List Char)
  | [] => [[]]
  | c :: rest =>
      if c = ' ' then [] :: splitOnSpace rest
      else
        match splitOnSpace rest with
        | [] => [[c]]
        | t :: ts => (c :: t) :: ts

/-- Numeric value of a list of decimal digit characters, as computed by the
Python int conversion on a digit string. -/
def digitsToNat (ds : List Char) : Nat :=
  ds.foldl (fun a c => a * 10 + (c.toNat - 48)) 0

/-! Fixed-format pattern matchers. -/

/-- Consume one character satisfying p, returning the remainder. -/
def matchOne (p : Char → Bool) : List Char → Option (List Char)
  | [] => none
  | c :: rest => if p c then some rest else none

/-- Consume the given literal characters, returning the remainder. -/
def matchChars : List Char → List Char → Option (List Char)
  | [], s => some s
  | _ :: _, [] => none
  | c :: cs, x :: s => if x = c then matchChars cs s else none

/-- Consume exactly n characters satisfying p, returning them and the
remainder. -/
def takeExact (p : Char → Bool) : Nat → List Char → Option (List Char × List Char)
  | 0, s => some ([], s)
  | _ + 1, [] => none
  | n + 1, c :: s =>
      if p c then (takeExact p n s).map (fun g => (c :: g.1, g.2)) else none

/-- Matcher for the regex fragment (\d{1,2})\. at the start of a line: a
greedy one-or-two digit day number followed by a literal dot.  Greediness
is deterministic here because a digit is never a dot. -/
def matchDay : List Char → Option (List Char × List Char)
  | c0 :: c1 :: rest =>
      if c0.isDigit && c1.isDigit then
        match rest with
        | '.' :: r => some ([c0, c1], r)
        | _ => none
      else if c0.isDigit && c1 = '.' then some ([c0], rest)
      else none
  | _ => none

/-- Matcher for the regex fragment (\d{1,5}) followed by \s: a greedy run
of at most five digits followed by one whitespace character.  Because a
digit is never whitespace, the greedy match is deterministic: the run of
leading digits must have length between 1 and 5 and be followed by
whitespace. -/
def matchFlightNo (s : List Char) : Option (List Char × List Char) :=
  let sp := s.span Char.isDigit
  if 1 ≤ sp.1.length && sp.1.length ≤ 5 then
    match sp.2 with
    | c :: r => if isSpaceChar c then some (sp.1, r) else none
    | [] => none
  else none

/-- The seven capture groups of the full flight pattern, in order. -/
structure FlightGroups where
  day : List Char
  weekday : List Char
  flight_no : List Char
  departure_airport : List Char
  departure_time : List Char
  arrival_time : List Char
  destination_airport : List Char
deriving DecidableEq

/-- Embedding of WORKDAY_PATTERN =
(caret)(\d{1,2})\.\s([A-Za-z]{3})\sC/I\s([A-Za-z]{3}) used with re.match
(anchored at the start of the line, trailing content ignored).  Returns
the day and weekday capture groups. -/
def workdayMatch (line : List Char) : Option (List Char × List Char) := do
  let (day, r1) ← matchDay line
  let r2 ← matchOne isSpaceChar r1
  let (wd, r3) ← takeExact Char.isAlpha 3 r2
  let r4 ← matchOne isSpaceChar r3
  let r5 ← matchChars ['C', '/', 'I'] r4
  let r6 ← matchOne isSpaceChar r5
  let (_ap, _r7) ← takeExact Char.isAlpha 3 r6
  pure (day, wd)

/-- Embedding of FLIGHT_PATTERN = (caret)LO (\d{1,5}) used with re.match
as a boolean test: the line starts with the literal characters L, O,
space, followed by at least one digit. -/
def flightMatch : List Char → Bool
  | 'L' :: 'O' :: ' ' :: c :: _ => c.isDigit
  | _ => false

/-- Embedding of FULL_FLIGHT_PATTERN =
(caret)(\d{1,2})\.\s([A-Za-z]{3})\sLO\s(\d{1,5})\s([A-Za-z]{3})\s(\d{4})\s(\d{4})\s([A-Za-z]{3})
used with re.match; returns the seven capture groups. -/
def fullFlightMatch (line : List Char) : Option FlightGroups := do
  let (day, r1) ← matchDay line
  let r2 ← matchOne isSpaceChar r1
  let (wd, r3) ← takeExact Char.isAlpha 3 r2
  let r4 ← matchOne isSpaceChar r3
  let r5 ← matchChars ['L', 'O'] r4
  let r6 ← matchOne isSpaceChar r5
  let (no, r7) ← matchFlightNo r6
  let (dep, r8) ← takeExact Char.isAlpha 3 r7
  let r9 ← matchOne isSpaceChar r8
  let (dt, r10) ← takeExact Char.isDigit 4 r9
  let r11 ← matchOne isSpaceChar r10
  let (at_, r12) ← takeExact Char.isDigit 4 r11
  let r13 ← matchOne isSpaceChar r12
  let (dest, _r14) ← takeExact Char.isAlpha 3 r13
  pure ⟨day, wd, no, dep, dt, at_, dest⟩

/-! Calendar dates and the strptime format %d%b%y. -/

/-- A Gregorian calendar date (year, month, day). -/
structure YMD where
  year : Nat
  month : Nat
  day : Nat
deriving DecidableEq

/-- Lowercased three-letter month abbreviations in month order, as matched
case-insensitively by the strptime directive %b. -/
def monthAbbrevs : List (List Char) :=
  [['j','a','n'], ['f','e','b'], ['m','a','r'], ['a','p','r'],
   ['m','a','y'], ['j','u','n'], ['j','u','l'], ['a','u','g'],
   ['s','e','p'], ['o','c','t'], ['n','o','v'], ['d','e','c']]

/-- Month number of a three-character abbreviation, case-insensitive. -/
def monthOf3 (m3 : List Char) : Option Nat :=
  match (monthAbbrevs.indexOf? (m3.map Char.toLower)) with
  | some i => some (i + 1)
  | none => none

/-- Gregorian leap-year test. -/
def isLeapYear (y : Nat) : Bool :=
  (y % 4 = 0 && !(y % 100 = 0)) || y % 400 = 0

/-- Number of days in a month, as validated by the datetime constructor. -/
def daysInMonth (y m : Nat) : Nat :=
  if m = 2 then (if isLeapYear y then 29 else 28)
  else if m = 4 || m = 6 || m = 9 || m = 11 then 30
  else 31

/-- Two-digit-year mapping used by the strptime directive %y. -/
def yearOfYY (yy : Nat) : Nat := if yy ≤ 68 then 2000 + yy else 1900 + yy

/-- Value of the strptime year directive %y on the remainder of the
token: exactly two digits that must exhaust the string (the %y regex is
two digits, and strptime rejects unconverted trailing data). -/
def parseYearTail : List Char → Option Nat
  | [a, b] => if a.isDigit && b.isDigit then some ((a.toNat - 48) * 10 + (b.toNat - 48)) else none
  | _ => none

/-- Continuation of the %d%b%y parse after the day value: three-letter
month, two-digit year, then the datetime constructor's day-range
validation. -/
def parseMonYyAfterDay (d : Nat) : List Char → Option YMD
  | a :: b :: c :: r => do
      let m ← monthOf3 [a, b, c]
      let yy ← parseYearTail r
      let y := yearOfYY yy
      if d ≤ daysInMonth y m then some ⟨y, m, d⟩ else none
  | _ => none

/-- Embedding of datetime.strptime(token, "%d%b%y"): a one-or-two digit
day (the %d alternation admits values 1 to 31, trying two digits before
one; when the first two characters are both digits the one-digit
alternative can never rescue a failed parse, because the month abbreviation
would have to start with a digit), a case-insensitive month abbreviation, an
exactly-two-digit year mapped through the %y pivot, full consumption of the
token, and finally the constructor's day-of-month range check.  Returns
none exactly when strptime raises ValueError. -/
def parseDdMonYy : List Char → Option YMD
  | c0 :: c1 :: rest =>
      if c0.isDigit && c1.isDigit then
        let v := (c0.toNat - 48) * 10 + (c1.toNat - 48)
        if 1 ≤ v && v ≤ 31 then parseMonYyAfterDay v rest else none
      else if c0.isDigit && 1 ≤ c0.toNat - 48 then
        parseMonYyAfterDay (c0.toNat - 48) (c1 :: rest)
      else none
  | _ => none

/-! The data model and the parsing pipeline of
src/src/processors/roster_parser.py, src/src/processors/pdf_processor.py
and src/src/models/flight_event.py. -/

/-- The error taxonomy relevant to the claims: InvalidFileError raised by
the structural pre-check, RosterParsingError raised by the parser. -/
inductive AppError where
  | invalidFile : String → AppError
  | rosterParsing : String → AppError
deriving DecidableEq

/-- Embedding of the FlightEvent dataclass (the two datetime fields are
computed, not stored, in this embedding). -/
structure FlightEvent where
  flight_no : List Char
  departure_airport : List Char
  destination_airport : List Char
  departure_time : List Char
  arrival_time : List Char
  day_of_month : Nat
  day_of_week : List Char
  period_start : YMD
  period_end : YMD
deriving DecidableEq

/-- Embedding of RosterParser.parse_period: needs at least two lines,
splits line index 1 on single spaces, needs at least three tokens, and
parses tokens 1 and 2 with strptime %d%b%y. -/
def parse_period : List (List Char) → Except AppError (YMD × YMD)
  | _l0 :: l1 :: _ =>
      (match splitOnSpace l1 with
       | _ :: p1 :: p2 :: _ =>
           match parseDdMonYy p1, parseDdMonYy p2 with
           | some s, some e => .ok (s, e)
           | _, _ => .error (.rosterParsing "Error parsing period dates: time data does not match format")
       | _ => .error (.rosterParsing "Cannot parse period from PDF header. Expected format not found."))
  | _ => .error (.rosterParsing "PDF doesn't contain enough data to parse period.")

/-- The check-in marker substring. -/
def ciMark : List Char := ['C', '/', 'I']

/-- The check-out marker substring. -/
def coMark : List Char := ['C', '/', 'O']

/-- The mutable scan state of RosterParser.extract_work_sections:
flushed sections, the open section buffer, the collecting flag, and the
current day and weekday context (both are set together from a workday
match and the captured groups are non-empty strings, so the two truthiness
tests of the Python code collapse to one option). -/
structure ScanState where
  sections : List (List (List Char))
  current : List (List Char)
  collecting : Bool
  ctx : Option (List Char × List Char)
deriving DecidableEq

/-- The scan state at the start of extract_work_sections. -/
def initScanState : ScanState := ⟨[], [], false, none⟩

/-- One iteration of the extract_work_sections loop body on one line:
update the day and weekday context on a workday match; on a check-in line
set the collecting flag and append the line; on a check-out line append
the line, flush the buffer as a section (the emptiness test mirrors the
Python code) and clear the flag; otherwise, while collecting with an
established context, append the line, repairing a bare flight line by
prepending the day and weekday. -/
def scanStep (st : ScanState) (line : List Char) : ScanState :=
  let ctx1 := match workdayMatch line with
    | some dw => some dw
    | none => st.ctx
  if hasSubstr ciMark line then
    { st with ctx := ctx1, collecting := true, current := st.current ++ [line] }
  else if hasSubstr coMark line then
    let cur := st.current ++ [line]
    { sections := st.sections ++ (if cur.isEmpty then [] else [cur]),
      current := [], collecting := false, ctx := ctx1 }
  else if st.collecting then
    match ctx1 with
    | some (d, w) =>
        if flightMatch line then
          { st with
            ctx := ctx1
            current := st.current ++ [d ++ '.' :: ' ' :: (w ++ ' ' :: line)] }
        else
          { st with ctx := ctx1, current := st.current ++ [line] }
    | none => { st with ctx := ctx1 }
  else { st with ctx := ctx1 }

/-- Embedding of RosterParser.extract_work_sections: fold the loop body
over the lines after the three header lines and return the flushed
sections; the buffer still open at the end of the fold is discarded. -/
def extract_work_sections (lines : List (List Char)) : List (List (List Char)) :=
  (List.foldl scanStep initScanState (lines.drop 3)).sections

/-- Embedding of RosterParser.extract_flights_from_sections: keep, in
order, every entry of every section that contains the substring LO and
matches the full flight pattern. -/
def extract_flights_from_sections (sections : List (List (List Char))) : List (List Char) :=
  sections.flatten.filter (fun e => hasSubstr ['L', 'O'] e && (fullFlightMatch e).isSome)

/-- Embedding of RosterParser.parse_flight_to_event: on a full-pattern
match build the FlightEvent from the seven capture groups (the int
conversion of the day group cannot fail on a digit string, so the
try/except in the source is dead). -/
def parse_flight_to_event (flight_line : List Char) (period_start period_end : YMD) :
    Option FlightEvent :=
  (fullFlightMatch flight_line).map (fun g =>
    { flight_no := g.flight_no
      departure_airport := g.departure_airport
      destination_airport := g.destination_airport
      departure_time := g.departure_time
      arrival_time := g.arrival_time
      day_of_month := digitsToNat g.day
      day_of_week := g.weekday
      period_start := period_start
      period_end := period_end })

/-- Embedding of RosterParser.parse_flights_from_pdf_lines called with
cutoff_datetime=None (the no-filter path): parse the period, extract the
sections and the flight lines, and build every event. -/
def parse_flights_from_pdf_lines (lines : List (List Char)) :
    Except AppError (List FlightEvent) :=
  match parse_period lines with
  | .error e => .error e
  | .ok (period_start, period_end) =>
      .ok ((extract_flights_from_sections (extract_work_sections lines)).filterMap
        (fun l => parse_flight_to_event l period_start period_end))

/-- Embedding of PDFProcessor.validate_pdf_structure: at least three
lines and at least one line containing a check-in or check-out marker,
otherwise an InvalidFileError. -/
def validate_pdf_structure (lines : List (List Char)) : Except AppError Unit :=
  if lines.length < 3 then
    .error (.invalidFile "PDF doesn't contain enough data. Expected at least 3 lines.")
  else if !(lines.any (fun l => hasSubstr ciMark l || hasSubstr coMark l)) then
    .error (.invalidFile "PDF doesn't appear to be a valid roster file. Missing C/I or C/O markers.")
  else .ok ()

/-! Datetime construction of src/src/models/flight_event.py.  The source
builds a timezone-aware UTC datetime and converts it with astimezone to
Europe/Warsaw; astimezone changes only the representation of the instant,
never the instant itself, so the embedding keeps the UTC wall-clock tuple
and compares instants through an absolute minute count. -/

/-- A UTC instant as the wall-clock tuple handed to the datetime
constructor. -/
structure UTCInstant where
  date : YMD
  hour : Nat
  minute : Nat
deriving DecidableEq

/-- Embedding of FlightEvent.set_departure_datetime: the period-end or
period-start anchor's year and month, the record's day of month, and the
hour and minute sliced from the four-digit departure time. -/
def set_departure_datetime (e : FlightEvent) (use_period_end : Bool) : UTCInstant :=
  let base := if use_period_end then e.period_end else e.period_start
  ⟨⟨base.year, base.month, e.day_of_month⟩,
   digitsToNat (e.departure_time.take 2), digitsToNat (e.departure_time.drop 2)⟩

/-- Embedding of FlightEvent.set_arrival_datetime: identical to the
departure construction except that the hour and minute come from the
arrival time; the date is the same anchor-resolved date. -/
def set_arrival_datetime (e : FlightEvent) (use_period_end : Bool) : UTCInstant :=
  let base := if use_period_end then e.period_end else e.period_start
  ⟨⟨base.year, base.month, e.day_of_month⟩,
   digitsToNat (e.arrival_time.take 2), digitsToNat (e.arrival_time.drop 2)⟩

/-- Days in the months of year y strictly before month m. -/
def daysBeforeMonth (y m : Nat) : Nat :=
  (List.range (m - 1)).foldl (fun a i => a + daysInMonth y (i + 1)) 0

/-- Proleptic-Gregorian day number of a date (days since the epoch of the
counting scheme); equal dates get equal numbers and later dates larger
numbers, which is all the instant ordering needs. -/
def dayNumber (d : YMD) : Nat :=
  (d.year - 1) * 365 + (d.year - 1) / 4 - (d.year - 1) / 100 + (d.year - 1) / 400
    + daysBeforeMonth d.year d.month + (d.day - 1)

/-- Absolute minute count of a UTC instant, the order datetime comparison
uses. -/
def instantMinutes (t : UTCInstant) : Nat :=
  dayNumber t.date * 1440 + t.hour * 60 + t.minute

/-! Rollover anchor selection.  Two implementations exist in the
repository: CalendarGenerator.create_ics_from_events recomputes
use_period_end for every record from the immediately preceding record
only, while the prototype create_ics_file in pdf_to_ics_parser.py keeps a
start_or_end variable that is set to the period-end anchor once and never
reset. -/

/-- Tail of the calendar-generator flags: the flag of each record is the
comparison of the previous record's day of month with its own. -/
def cgFlagsAux (prev : FlightEvent) : List FlightEvent → List Bool
  | [] => []
  | e :: es => decide (prev.day_of_month > e.day_of_month) :: cgFlagsAux e es

/-- Embedding of the use_period_end computation of
CalendarGenerator.create_ics_from_events: for index i the flag is
i greater than 0 and events at i-1 having a larger day of month than
events at i, recomputed independently for every i. -/
def cg_use_period_end_flags : List FlightEvent → List Bool
  | [] => []
  | e :: es => false :: cgFlagsAux e es

/-- Tail of the sticky flags of create_ics_file in pdf_to_ics_parser.py:
the start_or_end variable switches to the period-end anchor when the
previous record's day of month exceeds the current one's and is never
switched back. -/
def icsStickyFlagsAux (prev : Option FlightEvent) (flag : Bool) :
    List FlightEvent → List Bool
  | [] => []
  | e :: es =>
      let flag1 := flag || (match prev with
        | some p => decide (p.day_of_month > e.day_of_month)
        | none => false)
      flag1 :: icsStickyFlagsAux (some e) flag1 es

/-- Embedding of the start_or_end anchor choice of create_ics_file in
pdf_to_ics_parser.py, as the per-record boolean use-period-end flags. -/
def ics_sticky_flags (events : List FlightEvent) : List Bool :=
  icsStickyFlagsAux none false events

/-- Departure dates the calendar generator resolves for a record list:
each record's anchor-resolved date under its recomputed flag. -/
def cg_resolved_departure_dates (events : List FlightEvent) : List YMD :=
  (events.zip (cg_use_period_end_flags events)).map
    (fun p => (set_departure_datetime p.1 p.2).date)

/-- Departure dates the prototype create_ics_file resolves for a record
list: each record's anchor-resolved date under the sticky flag. -/
def ics_resolved_departure_dates (events : List FlightEvent) : List YMD :=
  (events.zip (ics_sticky_flags events)).map
    (fun p => (set_departure_datetime p.1 p.2).date)

/-- Modelled from the spec: the Period Resolver variant that also returns
min_cutoff_date.  The caller process_roster_pdf in src/app.py unpacks
(events, min_cutoff_datetime) from parse_flights_from_pdf_lines, but the
copy of roster_parser.py under src/ returns only the event list and never
reads header line 0; the extraction of min_cutoff_date is therefore
modelled from the spec sentence: from 0-indexed line 0 split on spaces,
require at least 7 tokens, parse token 6 in the %d%b%y format, failing
with a parsing error if the token count is insufficient or date parsing
fails. -/
def parse_period_with_cutoff : List (List Char) → Except AppError (YMD × YMD × YMD)
  | l0 :: l1 :: _ =>
      (match splitOnSpace l1 with
       | _ :: p1 :: p2 :: _ =>
           (match parseDdMonYy p1, parseDdMonYy p2 with
            | some s, some e =>
                (match splitOnSpace l0 with
                 | _ :: _ :: _ :: _ :: _ :: _ :: p6 :: _ =>
                     (match parseDdMonYy p6 with
                      | some mc => .ok (s, e, mc)
                      | none => .error (.rosterParsing "Error parsing minimal cutoff date from PDF header."))
                 | _ => .error (.rosterParsing "Cannot parse minimal cutoff date from PDF header. Expected format not found."))
            | _, _ => .error (.rosterParsing "Error parsing period dates: time data does not match format"))
       | _ => .error (.rosterParsing "Cannot parse period from PDF header. Expected format not found."))
  | _ => .error (.rosterParsing "PDF doesn't contain enough data to parse period.")

/-- Modelled from the spec: the pipeline variant returning the minimal
cutoff date alongside the record list, as unpacked by process_roster_pdf
in src/app.py. -/
def parse_flights_with_min_cutoff (lines : List (List Char)) :
    Except AppError (List FlightEvent × YMD) :=
  match parse_period_with_cutoff lines with
  | .error e => .error e
  | .ok (period_start, period_end, mc) =>
      .ok ((extract_flights_from_sections (extract_work_sections lines)).filterMap
        (fun l => parse_flight_to_event l period_start period_end), mc)

/-- A line containing a check-in or check-out marker. -/
def markerLine (e : List Char) : Prop :=
  hasSubstr ciMark e = true ∨ hasSubstr coMark e = true

/-- The scan invariant holding while no workday-start line has been seen:
no context, and only marker lines collected. -/
def noContextInv (st : ScanState) : Prop :=
  st.ctx = none ∧ (∀ e ∈ st.current, markerLine e) ∧
    (∀ s ∈ st.sections, ∀ e ∈ s, markerLine e)

/-- A flight record with the given day of month against the rollover
period anchors 2025-08-01 and 2025-09-01 (the other fields are the ones of
the worked scenario and are irrelevant to anchor selection). -/
def rolloverRecord (d : Nat) : FlightEvent :=
  { flight_no := ['6','3','5'], departure_airport := ['W','A','W'],
    destination_airport := ['S','O','F'], departure_time := ['2','0','5','5'],
    arrival_time := ['2','3','0','0'], day_of_month := d,
    day_of_week := ['T','h','u'],
    period_start := ⟨2025, 8, 1⟩, period_end := ⟨2025, 9, 1⟩ }

/-- A concrete conforming input: two header lines, one ignored line, one
work section with a bare flight line, a noise line and a full flight
line. -/
def c3DemoLines : List (List Char) :=
  ["MY ROSTER planned 15:33 xxx yyy 17Aug25 09:13Page1".data,
   "Individual 01Aug25 31Aug25".data,
   "<ignored>".data,
   "5. Tue C/I WAW".data,
   "LO 635 WAW 2055 2300 SOF E75".data,
   "H1 SOF".data,
   "6. Wed LO 636 SOF 0220 0425 WAW E75".data,
   "6. Wed C/O WAW".data]

/-- A trailing work section that is opened but never checked out. -/
def c3DemoTail : List (List Char) :=
  ["7. Thu C/I WAW".data, "LO 777 WAW 0900 1100 SOF E75".data]

/-! Helper lemmas about the matchers and the substring test. -/

lemma startsWith_append_self (pat post : List Char) :
    startsWith pat (pat ++ post) = true := by
  induction pat with
  | nil => rfl
  | cons c cs ih => simp [startsWith, ih]

lemma hasSubstr_nil_pat (l : List Char) : hasSubstr [] l = true := by
  cases l with
  | nil => rfl
  | cons c r => simp [hasSubstr, startsWith]

lemma hasSubstr_parts (pat pre post : List Char) :
    hasSubstr pat (pre ++ (pat ++ post)) = true := by
  induction pre with
  | nil =>
      cases pat with
      | nil => simpa using hasSubstr_nil_pat post
      | cons p ps =>
          have h := startsWith_append_self (p :: ps) post
          simp only [List.cons_append] at h
          simp [hasSubstr, h]
  | cons c cs ih => simp [hasSubstr, ih]

lemma matchOne_eq_some {p : Char → Bool} {s r : List Char}
    (h : matchOne p s = some r) : ∃ c, s = c :: r ∧ p c = true := by
  cases s with
  | nil => simp [matchOne] at h
  | cons c cs =>
      simp only [matchOne] at h
      split at h
      · exact ⟨c, by simp_all, by assumption⟩
      · exact absurd h (by simp)

lemma matchChars_eq_some : ∀ {cs s r : List Char},
    matchChars cs s = some r → s = cs ++ r := by
  intro cs
  induction cs with
  | nil => intro s r h; simpa [matchChars] using h
  | cons c cs ih =>
      intro s r h
      cases s with
      | nil => simp [matchChars] at h
      | cons x xs =>
          simp only [matchChars] at h
          split at h
          · simp_all [ih h]
          · exact absurd h (by simp)

lemma takeExact_eq_some {p : Char → Bool} : ∀ {n : Nat} {s g r : List Char},
    takeExact p n s = some (g, r) →
    s = g ++ r ∧ g.length = n ∧ ∀ c ∈ g, p c = true := by
  intro n
  induction n with
  | zero =>
      intro s g r h
      simp only [takeExact, Option.some.injEq, Prod.mk.injEq] at h
      simp [← h.1, ← h.2]
  | succ n ih =>
      intro s g r h
      cases s with
      | nil => simp [takeExact] at h
      | cons c cs =>
          simp only [takeExact] at h
          split at h
          · rename_i hpc
            rw [Option.map_eq_some'] at h
            obtain ⟨⟨g1, r1⟩, hx, hgr⟩ := h
            obtain ⟨hs, hl, hall⟩ := ih hx
            injection hgr with hg hr
            subst hg
            subst hr
            refine ⟨by simp [hs], by simp [hl], ?_⟩
            intro x hx1
            rcases List.mem_cons.mp hx1 with h1 | h1
            · subst h1; exact hpc
            · exact hall x h1
          · exact absurd h (by simp)

lemma matchDay_eq_some {line d r : List Char}
    (h : matchDay line = some (d, r)) : line = d ++ '.' :: r := by
  cases line with
  | nil => simp [matchDay] at h
  | cons c0 rest0 =>
      cases rest0 with
      | nil => simp [matchDay] at h
      | cons c1 rest =>
          simp only [matchDay] at h
          split at h
          · split at h
            · simp only [Option.some.injEq, Prod.mk.injEq] at h
              rw [← h.1, ← h.2]
              simp
            · exact absurd h (by simp)
          · split at h
            · rename_i h1 h2
              simp only [Option.some.injEq, Prod.mk.injEq] at h
              simp only [Bool.and_eq_true, decide_eq_true_eq] at h2
              simp [← h.1, ← h.2, h2.2]
            · exact absurd h (by simp)

lemma matchFlightNo_eq_some {s g r : List Char}
    (h : matchFlightNo s = some (g, r)) :
    ∃ c, s = g ++ c :: r ∧ isSpaceChar c = true := by
  rcases hs : (s.span Char.isDigit).2 with _ | ⟨c, cs⟩
  · simp only [matchFlightNo, hs] at h
    split at h <;> simp at h
  · simp only [matchFlightNo, hs] at h
    split at h
    · split at h
      · rename_i hsp
        simp only [Option.some.injEq, Prod.mk.injEq] at h
        refine ⟨c, ?_, hsp⟩
        have hsp2 : (s.span Char.isDigit).1 ++ (s.span Char.isDigit).2 = s := by
          simp [List.span_eq_take_drop]
        calc s = (s.span Char.isDigit).1 ++ (s.span Char.isDigit).2 := hsp2.symm
          _ = (s.span Char.isDigit).1 ++ c :: cs := by rw [hs]
          _ = g ++ c :: r := by rw [h.1, h.2]
      · exact absurd h (by simp)
    · exact absurd h (by simp)

lemma workdayMatch_implies_ci {line : List Char} {dw : List Char × List Char}
    (h : workdayMatch line = some dw) : hasSubstr ciMark line = true := by
  simp only [workdayMatch, Option.bind_eq_bind, Option.bind_eq_some, Option.pure_def,
    Option.some.injEq] at h
  obtain ⟨⟨d, r1⟩, h1, r2, h2, ⟨wd, r3⟩, h3, r4, h4, r5, h5, r6, h6, ⟨ap, r7⟩, h7, _⟩ := h
  obtain ⟨c2, hc2, -⟩ := matchOne_eq_some h2
  obtain ⟨hr2, -, -⟩ := takeExact_eq_some h3
  obtain ⟨c4, hc4, -⟩ := matchOne_eq_some h4
  have h5s := matchChars_eq_some h5
  dsimp only at hc2 hc4
  rw [matchDay_eq_some h1, hc2, hr2, hc4, h5s]
  have : d ++ '.' :: c2 :: (wd ++ c4 :: (['C', '/', 'I'] ++ r5))
      = (d ++ '.' :: c2 :: wd ++ [c4]) ++ (ciMark ++ r5) := by
    simp [ciMark]
  rw [this]
  exact hasSubstr_parts ciMark _ r5

lemma fullFlightMatch_eq_some {line : List Char} {g : FlightGroups}
    (h : fullFlightMatch line = some g) :
    (∃ pre post, line = pre ++ ('L' :: 'O' :: post)) ∧
    g.departure_time.length = 4 ∧ (∀ c ∈ g.departure_time, c.isDigit = true) ∧
    g.arrival_time.length = 4 ∧ (∀ c ∈ g.arrival_time, c.isDigit = true) := by
  simp only [fullFlightMatch, Option.bind_eq_bind, Option.bind_eq_some, Option.pure_def,
    Option.some.injEq] at h
  obtain ⟨⟨d, r1⟩, h1, r2, h2, ⟨wd, r3⟩, h3, r4, h4, r5, h5, r6, h6, ⟨no, r7⟩, h7,
    ⟨dep, r8⟩, h8, r9, h9, ⟨dt, r10⟩, h10, r11, h11, ⟨at_, r12⟩, h12, r13, h13,
    ⟨dest, r14⟩, h14, hg⟩ := h
  refine ⟨?_, ?_, ?_, ?_, ?_⟩
  · obtain ⟨c2, hc2, -⟩ := matchOne_eq_some h2
    obtain ⟨hr2, -, -⟩ := takeExact_eq_some h3
    obtain ⟨c4, hc4, -⟩ := matchOne_eq_some h4
    have h5s := matchChars_eq_some h5
    dsimp only at hc2 hc4
    refine ⟨d ++ '.' :: c2 :: wd ++ [c4], r5, ?_⟩
    rw [matchDay_eq_some h1, hc2, hr2, hc4, h5s]
    simp
  · rw [← hg]; exact (takeExact_eq_some h10).2.1
  · rw [← hg]; exact (takeExact_eq_some h10).2.2
  · rw [← hg]; exact (takeExact_eq_some h12).2.1
  · rw [← hg]; exact (takeExact_eq_some h12).2.2

lemma fullFlightMatch_implies_LO {line : List Char}
    (h : (fullFlightMatch line).isSome = true) :
    hasSubstr ['L', 'O'] line = true := by
  rw [Option.isSome_iff_exists] at h
  obtain ⟨g, hg⟩ := h
  obtain ⟨⟨pre, post, hline⟩, -⟩ := fullFlightMatch_eq_some hg
  rw [hline]
  exact hasSubstr_parts ['L', 'O'] pre post

/-! Invariants of the section scan. -/

lemma scanStep_sections_of_no_co {st : ScanState} {line : List Char}
    (h : hasSubstr coMark line = false) :
    (scanStep st line).sections = st.sections := by
  simp only [scanStep, h]
  split
  · rfl
  · simp only [Bool.false_eq_true, if_false]
    split
    · split
      · split <;> rfl
      · rfl
    · rfl

lemma foldl_sections_of_no_co : ∀ (ls : List (List Char)) (st : ScanState),
    (∀ l ∈ ls, hasSubstr coMark l = false) →
    (List.foldl scanStep st ls).sections = st.sections := by
  intro ls
  induction ls with
  | nil => intro st _; rfl
  | cons l ls ih =>
      intro st h
      rw [List.foldl_cons, ih _ (fun x hx => h x (List.mem_cons_of_mem _ hx)),
        scanStep_sections_of_no_co (h l (List.mem_cons_self _ _))]

lemma scanStep_sections_endCO {st : ScanState} {line : List Char}
    (hQ : ∀ s ∈ st.sections, ∃ front last, s = front ++ [last] ∧ hasSubstr coMark last = true) :
    ∀ s ∈ (scanStep st line).sections,
      ∃ front last, s = front ++ [last] ∧ hasSubstr coMark last = true := by
  intro s hs
  simp only [scanStep] at hs
  split at hs
  · exact hQ s hs
  · split at hs
    · rename_i hco
      simp only [List.isEmpty_eq_true, List.append_eq_nil, List.cons_ne_nil, and_false,
        if_false] at hs
      rcases List.mem_append.mp hs with h1 | h1
      · exact hQ s h1
      · rcases List.mem_singleton.mp h1 with rfl
        exact ⟨st.current, line, rfl, hco⟩
    · split at hs
      · split at hs
        · split at hs <;> exact hQ s hs
        · exact hQ s hs
      · exact hQ s hs

lemma foldl_sections_endCO : ∀ (ls : List (List Char)) (st : ScanState),
    (∀ s ∈ st.sections, ∃ front last, s = front ++ [last] ∧ hasSubstr coMark last = true) →
    ∀ s ∈ (List.foldl scanStep st ls).sections,
      ∃ front last, s = front ++ [last] ∧ hasSubstr coMark last = true := by
  intro ls
  induction ls with
  | nil => intro st h; exact h
  | cons l ls ih =>
      intro st h
      rw [List.foldl_cons]
      exact ih _ (scanStep_sections_endCO h)

lemma scanStep_noContextInv {st : ScanState} {line : List Char}
    (hwd : workdayMatch line = none) (hinv : noContextInv st) :
    noContextInv (scanStep st line) := by
  obtain ⟨h1, h2, h3⟩ := hinv
  simp only [scanStep, hwd, h1]
  by_cases hci : hasSubstr ciMark line = true
  · simp only [hci, if_true]
    refine ⟨rfl, ?_, h3⟩
    intro e he
    rcases List.mem_append.mp he with h4 | h4
    · exact h2 e h4
    · rcases List.mem_singleton.mp h4 with rfl
      exact Or.inl hci
  · simp only [hci, Bool.false_eq_true, if_false]
    by_cases hco : hasSubstr coMark line = true
    · simp only [hco, if_true]
      refine ⟨rfl, by simp, ?_⟩
      intro s hs
      simp only [List.isEmpty_eq_true, List.append_eq_nil, List.cons_ne_nil, and_false,
        if_false] at hs
      rcases List.mem_append.mp hs with h4 | h4
      · exact h3 s h4
      · rcases List.mem_singleton.mp h4 with rfl
        intro e he
        rcases List.mem_append.mp he with h5 | h5
        · exact h2 e h5
        · rcases List.mem_singleton.mp h5 with rfl
          exact Or.inr hco
    · simp only [hco, Bool.false_eq_true, if_false]
      split
      · exact ⟨rfl, h2, h3⟩
      · exact ⟨rfl, h2, h3⟩

lemma foldl_noContextInv : ∀ (ls : List (List Char)) (st : ScanState),
    (∀ l ∈ ls, workdayMatch l = none) → noContextInv st →
    noContextInv (List.foldl scanStep st ls) := by
  intro ls
  induction ls with
  | nil => intro st _ h; exact h
  | cons l ls ih =>
      intro st h hinv
      rw [List.foldl_cons]
      exact ih _ (fun x hx => h x (List.mem_cons_of_mem _ hx))
        (scanStep_noContextInv (h l (List.mem_cons_self _ _)) hinv)

lemma length_filterMap_of_isSome {α β : Type} :
    ∀ (l : List α) (f : α → Option β),
    (∀ x ∈ l, (f x).isSome = true) → (l.filterMap f).length = l.length := by
  intro l f
  induction l with
  | nil => intro _; rfl
  | cons x xs ih =>
      intro h
      have hx := h x (List.mem_cons_self _ _)
      rw [Option.isSome_iff_exists] at hx
      obtain ⟨b, hb⟩ := hx
      rw [List.filterMap_cons, hb]
      simp only [List.length_cons]
      rw [ih (fun y hy => h y (List.mem_cons_of_mem _ hy))]

lemma icsStickyFlagsAux_head {es : List FlightEvent} {prev : Option FlightEvent}
    {flag : Bool} {b : Bool} (h : (icsStickyFlagsAux prev flag es).head? = some b) :
    flag = true → b = true := by
  intro hf
  subst hf
  cases es with
  | nil => simp [icsStickyFlagsAux] at h
  | cons e es =>
      simp only [icsStickyFlagsAux, List.head?_cons, Option.some.injEq] at h
      simp [← h]

lemma icsStickyFlagsAux_chain : ∀ (es : List FlightEvent) (prev : Option FlightEvent)
    (flag : Bool), List.Chain' (fun a b => a = true → b = true)
      (icsStickyFlagsAux prev flag es) := by
  intro es
  induction es with
  | nil => intro prev flag; simp [icsStickyFlagsAux]
  | cons e es ih =>
      intro prev flag
      simp only [icsStickyFlagsAux]
      rw [List.chain'_cons']
      exact ⟨fun y hy => icsStickyFlagsAux_head hy, ih _ _⟩

lemma exists_four_of_length {α : Type} : ∀ {l : List α}, l.length = 4 →
    ∃ a b c d, l = [a, b, c, d] := by
  intro l h
  rcases l with - | ⟨a, l⟩
  · simp at h
  rcases l with - | ⟨b, l⟩
  · simp at h
  rcases l with - | ⟨c, l⟩
  · simp at h
  rcases l with - | ⟨d, l⟩
  · simp at h
  rcases l with - | ⟨x, l⟩
  · exact ⟨a, b, c, d, rfl⟩
  · simp at h

lemma char_digit_toNat_le {c : Char} (h : c.isDigit = true) : c.toNat ≤ 57 := by
  simp only [Char.isDigit, Bool.and_eq_true, decide_eq_true_eq] at h
  exact UInt32.toNat_le_of_le (by decide) h.2

lemma digitsToNat_two_le {a b : Char} (ha : a.isDigit = true) (hb : b.isDigit = true) :
    digitsToNat [a, b] ≤ 99 := by
  have h1 := char_digit_toNat_le ha
  have h2 := char_digit_toNat_le hb
  simp only [digitsToNat, List.foldl]
  omega

lemma digitsToNat_four_split (a b c d : Char) :
    digitsToNat [a, b, c, d] = 100 * digitsToNat [a, b] + digitsToNat [c, d] := by
  simp only [digitsToNat, List.foldl]
  omega

lemma parse_flight_to_event_isSome {line : List Char} {ps pe : YMD} :
    (parse_flight_to_event line ps pe).isSome = (fullFlightMatch line).isSome := by
  simp [parse_flight_to_event]

lemma ppwc_ok_shape {l0 l1 : List Char} {rest : List (List Char)} {s e mc : YMD}
    (h : parse_period_with_cutoff (l0 :: l1 :: rest) = .ok (s, e, mc)) :
    7 ≤ (splitOnSpace l0).length ∧
    ∃ t6, (splitOnSpace l0).get? 6 = some t6 ∧ parseDdMonYy t6 = some mc := by
  rcases hs : splitOnSpace l1 with - | ⟨t0, - | ⟨t1, - | ⟨t2, ts1⟩⟩⟩
  · simp [parse_period_with_cutoff, hs] at h
  · simp [parse_period_with_cutoff, hs] at h
  · simp [parse_period_with_cutoff, hs] at h
  rcases hp1 : parseDdMonYy t1 with - | d1
  · simp [parse_period_with_cutoff, hs, hp1] at h
  rcases hp2 : parseDdMonYy t2 with - | d2
  · simp [parse_period_with_cutoff, hs, hp1, hp2] at h
  rcases hs0 : splitOnSpace l0 with
    - | ⟨a0, - | ⟨a1, - | ⟨a2, - | ⟨a3, - | ⟨a4, - | ⟨a5, - | ⟨t6, ts⟩⟩⟩⟩⟩⟩⟩
  · simp [parse_period_with_cutoff, hs, hp1, hp2, hs0] at h
  · simp [parse_period_with_cutoff, hs, hp1, hp2, hs0] at h
  · simp [parse_period_with_cutoff, hs, hp1, hp2, hs0] at h
  · simp [parse_period_with_cutoff, hs, hp1, hp2, hs0] at h
  · simp [parse_period_with_cutoff, hs, hp1, hp2, hs0] at h
  · simp [parse_period_with_cutoff, hs, hp1, hp2, hs0] at h
  · simp [parse_period_with_cutoff, hs, hp1, hp2, hs0] at h
  rcases hp6 : parseDdMonYy t6 with - | mc6
  · simp [parse_period_with_cutoff, hs, hp1, hp2, hs0, hp6] at h
  simp only [parse_period_with_cutoff, hs, hp1, hp2, hs0, hp6, Except.ok.injEq,
    Prod.mk.injEq] at h
  refine ⟨by simp, t6, by simp, ?_⟩
  rw [hp6, h.2.2]

lemma ppwc_err_of_l0 {l0 l1 : List Char} {rest : List (List Char)}
    (h : (splitOnSpace l0).length < 7 ∨
         (∃ t6, (splitOnSpace l0).get? 6 = some t6 ∧ parseDdMonYy t6 = none)) :
    ∃ msg, parse_period_with_cutoff (l0 :: l1 :: rest)
      = .error (.rosterParsing msg) := by
  rcases hs : splitOnSpace l1 with - | ⟨t0, - | ⟨t1, - | ⟨t2, ts1⟩⟩⟩
  · exact ⟨"Cannot parse period from PDF header. Expected format not found.",
      by simp [parse_period_with_cutoff, hs]⟩
  · exact ⟨"Cannot parse period from PDF header. Expected format not found.",
      by simp [parse_period_with_cutoff, hs]⟩
  · exact ⟨"Cannot parse period from PDF header. Expected format not found.",
      by simp [parse_period_with_cutoff, hs]⟩
  rcases hp1 : parseDdMonYy t1 with - | d1
  · exact ⟨"Error parsing period dates: time data does not match format",
      by simp [parse_period_with_cutoff, hs, hp1]⟩
  rcases hp2 : parseDdMonYy t2 with - | d2
  · exact ⟨"Error parsing period dates: time data does not match format",
      by simp [parse_period_with_cutoff, hs, hp1, hp2]⟩
  rcases hs0 : splitOnSpace l0 with
    - | ⟨a0, - | ⟨a1, - | ⟨a2, - | ⟨a3, - | ⟨a4, - | ⟨a5, - | ⟨t6, ts⟩⟩⟩⟩⟩⟩⟩
  · exact ⟨"Cannot parse minimal cutoff date from PDF header. Expected format not found.",
      by simp [parse_period_with_cutoff, hs, hp1, hp2, hs0]⟩
  · exact ⟨"Cannot parse minimal cutoff date from PDF header. Expected format not found.",
      by simp [parse_period_with_cutoff, hs, hp1, hp2, hs0]⟩
  · exact ⟨"Cannot parse minimal cutoff date from PDF header. Expected format not found.",
      by simp [parse_period_with_cutoff, hs, hp1, hp2, hs0]⟩
  · exact ⟨"Cannot parse minimal cutoff date from PDF header. Expected format not found.",
      by simp [parse_period_with_cutoff, hs, hp1, hp2, hs0]⟩
  · exact ⟨"Cannot parse minimal cutoff date from PDF header. Expected format not found.",
      by simp [parse_period_with_cutoff, hs, hp1, hp2, hs0]⟩
  · exact ⟨"Cannot parse minimal cutoff date from PDF header. Expected format not found.",
      by simp [parse_period_with_cutoff, hs, hp1, hp2, hs0]⟩
  · exact ⟨"Cannot parse minimal cutoff date from PDF header. Expected format not found.",
      by simp [parse_period_with_cutoff, hs, hp1, hp2, hs0]⟩
  rcases h with hlen | ⟨t6x, hget, hnone⟩
  · rw [hs0] at hlen
    simp only [List.length_cons] at hlen
    omega
  · rw [hs0] at hget
    simp only [List.get?_cons_succ, List.get?_cons_zero, Option.some.injEq] at hget
    subst hget
    exact ⟨"Error parsing minimal cutoff date from PDF header.",
      by simp [parse_period_with_cutoff, hs, hp1, hp2, hs0, hnone]⟩

/-! The claims. -/

/-- C1.  In the prototype create_ics_file the anchor flag is monotone:
along the emitted use-period-end flags, a true flag is never followed by a
false one (the start_or_end variable flips once and stays flipped); and on
the rollover day-of-month sequence 29, 30, 1, 2 against the anchors
2025-08-01 and 2025-09-01 it resolves the dates 2025-08-29, 2025-08-30,
2025-09-01, 2025-09-02 exactly as the claim states.  The modular rewrite
CalendarGenerator.create_ics_from_events, however, recomputes the flag for
every record from the immediately preceding record alone, and on the same
input resolves the fourth record to 2025-08-02: the flag does not stay
flipped, contradicting the claim on that code path. -/
theorem c1_rollover_monotone_vs_calendar_generator :
    (∀ events : List FlightEvent,
      List.Chain' (fun a b => a = true → b = true) (ics_sticky_flags events)) ∧
    ics_resolved_departure_dates
        [rolloverRecord 29, rolloverRecord 30, rolloverRecord 1, rolloverRecord 2]
      = [⟨2025, 8, 29⟩, ⟨2025, 8, 30⟩, ⟨2025, 9, 1⟩, ⟨2025, 9, 2⟩] ∧
    cg_resolved_departure_dates
        [rolloverRecord 29, rolloverRecord 30, rolloverRecord 1, rolloverRecord 2]
      = [⟨2025, 8, 29⟩, ⟨2025, 8, 30⟩, ⟨2025, 9, 1⟩, ⟨2025, 8, 2⟩] :=
  ⟨fun _ => icsStickyFlagsAux_chain _ _ _, by decide, by decide⟩

/-- C8.  A check-out line with no preceding check-in line is still
appended and flushed as a section of its own: on an input whose body is a
single check-out line and nothing else, extract_work_sections emits the
one-line section, because the check-out branch does not test the
collecting flag. -/
theorem c8_checkout_flushes_while_idle :
    extract_work_sections
        [['h'], ['h'], ['h'], "5. Tue C/O WAW".data]
      = [["5. Tue C/O WAW".data]] := by decide

/-- C4.  Date-prefix repair: in any scan state that is collecting and
whose last workday-start context is day 29, weekday Thu, the bare line
LO 635 WAW 2055 2300 SOF E75 is appended with the repaired prefix, and the
repaired line parses to exactly the claimed flight record. -/
theorem c4_date_prefix_repair (st : ScanState) (ps pe : YMD)
    (h1 : st.collecting = true)
    (h2 : st.ctx = some ("29".data, "Thu".data)) :
    (scanStep st "LO 635 WAW 2055 2300 SOF E75".data).current
      = st.current ++ ["29. Thu LO 635 WAW 2055 2300 SOF E75".data] ∧
    parse_flight_to_event "29. Thu LO 635 WAW 2055 2300 SOF E75".data ps pe
      = some { flight_no := "635".data, departure_airport := "WAW".data,
               destination_airport := "SOF".data, departure_time := "2055".data,
               arrival_time := "2300".data, day_of_month := 29,
               day_of_week := "Thu".data, period_start := ps, period_end := pe } := by
  constructor
  · have hwd : workdayMatch "LO 635 WAW 2055 2300 SOF E75".data = none := by decide
    have hci : hasSubstr ciMark "LO 635 WAW 2055 2300 SOF E75".data = false := by decide
    have hco : hasSubstr coMark "LO 635 WAW 2055 2300 SOF E75".data = false := by decide
    have hfm : flightMatch "LO 635 WAW 2055 2300 SOF E75".data = true := by decide
    have hrep : ("29".data : List Char) ++ '.' :: ' ' ::
        ("Thu".data ++ ' ' :: "LO 635 WAW 2055 2300 SOF E75".data)
        = "29. Thu LO 635 WAW 2055 2300 SOF E75".data := by decide
    simp [scanStep, hwd, hci, hco, h1, h2, hfm, hrep]
  · have hfull : fullFlightMatch "29. Thu LO 635 WAW 2055 2300 SOF E75".data
        = some ⟨"29".data, "Thu".data, "635".data, "WAW".data,
                "2055".data, "2300".data, "SOF".data⟩ := by decide
    have hday : digitsToNat "29".data = 29 := by decide
    simp [parse_flight_to_event, hfull, hday]

/-- C4 witness: the repair theorem applied in the concrete collecting
state with context day 29, weekday Thu. -/
theorem c4_date_prefix_repair_witness :
    (scanStep ⟨[], ["29. Thu C/I WAW".data], true, some ("29".data, "Thu".data)⟩
        "LO 635 WAW 2055 2300 SOF E75".data).current
      = ["29. Thu C/I WAW".data] ++ ["29. Thu LO 635 WAW 2055 2300 SOF E75".data] ∧
    parse_flight_to_event "29. Thu LO 635 WAW 2055 2300 SOF E75".data ⟨2025, 8, 1⟩ ⟨2025, 9, 1⟩
      = some { flight_no := "635".data, departure_airport := "WAW".data,
               destination_airport := "SOF".data, departure_time := "2055".data,
               arrival_time := "2300".data, day_of_month := 29,
               day_of_week := "Thu".data, period_start := ⟨2025, 8, 1⟩,
               period_end := ⟨2025, 9, 1⟩ } :=
  c4_date_prefix_repair ⟨[], ["29. Thu C/I WAW".data], true, some ("29".data, "Thu".data)⟩
    ⟨2025, 8, 1⟩ ⟨2025, 9, 1⟩ rfl rfl

/-- C7.  The structural pre-check accepts a line list exactly when it has
at least 3 lines and some line contains a check-in or check-out marker
substring, and every rejection is the distinct invalid-file error. -/
theorem c7_validate_pdf_structure_iff :
    ∀ lines : List (List Char),
      (validate_pdf_structure lines = .ok () ↔
        (3 ≤ lines.length ∧
          ∃ l ∈ lines, hasSubstr ciMark l = true ∨ hasSubstr coMark l = true)) ∧
      (validate_pdf_structure lines = .ok () ∨
        ∃ msg, validate_pdf_structure lines = .error (.invalidFile msg)) := by
  intro lines
  constructor
  · unfold validate_pdf_structure
    split
    · rename_i hlen
      constructor
      · intro h; exact absurd h (by simp)
      · rintro ⟨h3, -⟩; omega
    · rename_i hlen
      split
      · rename_i hany
        constructor
        · intro h; exact absurd h (by simp)
        · rintro ⟨-, l, hl, hmark⟩
          have hany2 : lines.any (fun l => hasSubstr ciMark l || hasSubstr coMark l) = false := by
            cases hAB : lines.any (fun l => hasSubstr ciMark l || hasSubstr coMark l) with
            | false => rfl
            | true => rw [hAB] at hany; exact absurd hany (by decide)
          rw [List.any_eq_false] at hany2
          have := hany2 l hl
          rcases hmark with hm | hm <;> simp [hm] at this
      · rename_i hany
        constructor
        · intro _
          refine ⟨by omega, ?_⟩
          have hany2 : lines.any (fun l => hasSubstr ciMark l || hasSubstr coMark l) = true := by
            cases hAB : lines.any (fun l => hasSubstr ciMark l || hasSubstr coMark l) with
            | true => rfl
            | false => rw [hAB] at hany; exact absurd rfl hany
          rw [List.any_eq_true] at hany2
          obtain ⟨l, hl, hm⟩ := hany2
          exact ⟨l, hl, Bool.or_eq_true_iff.mp hm⟩
        · intro _; rfl
  · unfold validate_pdf_structure
    split
    · exact Or.inr ⟨_, rfl⟩
    · split
      · exact Or.inr ⟨_, rfl⟩
      · exact Or.inl rfl

/-- C7 witness: the pre-check accepts a concrete three-line list with a
check-in marker. -/
theorem c7_validate_pdf_structure_witness :
    validate_pdf_structure [['a'], ['b'], "1. Mon C/I WAW".data] = .ok () :=
  (c7_validate_pdf_structure_iff [['a'], ['b'], "1. Mon C/I WAW".data]).1.mpr
    ⟨by decide, "1. Mon C/I WAW".data, by decide, by decide⟩

/-- C9.  Every section returned by extract_work_sections is non-empty and
its last line contains the check-out marker, for every input. -/
theorem c9_sections_end_with_checkout :
    ∀ (lines : List (List Char)), ∀ s ∈ extract_work_sections lines,
      ∃ front last, s = front ++ [last] ∧ hasSubstr coMark last = true := by
  intro lines
  exact foldl_sections_endCO (lines.drop 3) initScanState
    (by intro s hs; simp [initScanState] at hs)

/-- C9 witness: the invariant instantiated on a concrete two-line
section. -/
theorem c9_sections_end_with_checkout_witness :
    ∃ front last,
      (["1. Mon C/I WAW".data, "1. Mon C/O WAW".data] : List (List Char))
        = front ++ [last] ∧ hasSubstr coMark last = true :=
  c9_sections_end_with_checkout
    [['x'], ['y'], ['z'], "1. Mon C/I WAW".data, "1. Mon C/O WAW".data]
    ["1. Mon C/I WAW".data, "1. Mon C/O WAW".data] (by decide)

/-- C10.  While no workday-start context has ever been established the
scanner drops every non-marker line unchanged (the scan state is left
exactly as it was), and consequently on an input whose body contains no
workday-start line every line of every emitted section contains a
check-in or check-out marker. -/
theorem c10_no_context_drops_nonmarker_lines :
    (∀ (st : ScanState) (line : List Char),
       st.ctx = none → hasSubstr ciMark line = false → hasSubstr coMark line = false →
       scanStep st line = st) ∧
    (∀ lines : List (List Char),
       (∀ l ∈ lines.drop 3, workdayMatch l = none) →
       ∀ s ∈ extract_work_sections lines, ∀ e ∈ s,
         hasSubstr ciMark e = true ∨ hasSubstr coMark e = true) := by
  constructor
  · intro st line h1 hci hco
    have hwd : workdayMatch line = none := by
      cases hw : workdayMatch line with
      | none => rfl
      | some dw =>
          rw [workdayMatch_implies_ci hw] at hci
          exact absurd hci (by simp)
    obtain ⟨secs, cur, col, ctx⟩ := st
    simp only at h1
    subst h1
    simp [scanStep, hwd, hci, hco]
  · intro lines hno
    have hinv := foldl_noContextInv (lines.drop 3) initScanState hno
      ⟨rfl, by simp [initScanState], by simp [initScanState]⟩
    intro s hs e he
    exact hinv.2.2 s hs e he

/-- C10 witness: a bare flight line is dropped in a collecting state with
no context, and in a concrete no-workday-start input the one emitted
section consists of marker lines only. -/
theorem c10_no_context_drops_nonmarker_lines_witness :
    scanStep ⟨[], [], true, none⟩ "LO 635 WAW 2055 2300 SOF E75".data
      = ⟨[], [], true, none⟩ ∧
    (hasSubstr ciMark "x C/I WAW".data = true ∨ hasSubstr coMark "x C/I WAW".data = true) :=
  ⟨c10_no_context_drops_nonmarker_lines.1 ⟨[], [], true, none⟩
      "LO 635 WAW 2055 2300 SOF E75".data rfl (by decide) (by decide),
   c10_no_context_drops_nonmarker_lines.2
      [['a'], ['b'], ['c'], "x C/I WAW".data, "LO 635 WAW 2055 2300 SOF E75".data,
        "y C/O WAW".data]
      (by decide)
      ["x C/I WAW".data, "y C/O WAW".data] (by decide)
      "x C/I WAW".data (by decide)⟩

/-- C5.  For every flight record built by the record builder, the arrival
instant is constructed on exactly the anchor-resolved date of the
departure instant (no day is ever added), and therefore whenever the raw
arrival HHMM is numerically smaller than the raw departure HHMM the
arrival instant precedes the departure instant.  The minute-validity
hypotheses are the ones the datetime constructor itself enforces.  The
astimezone conversion to Europe/Warsaw preserves instants, so the ordering
statement transfers to the converted values unchanged. -/
theorem c5_arrival_same_resolved_date
    (line : List Char) (ps pe : YMD) (e : FlightEvent) (b : Bool)
    (hparse : parse_flight_to_event line ps pe = some e)
    (hmArr : digitsToNat (e.arrival_time.drop 2) < 60)
    (hmDep : digitsToNat (e.departure_time.drop 2) < 60) :
    (set_arrival_datetime e b).date = (set_departure_datetime e b).date ∧
    (digitsToNat e.arrival_time < digitsToNat e.departure_time →
      instantMinutes (set_arrival_datetime e b)
        < instantMinutes (set_departure_datetime e b)) := by
  constructor
  · rfl
  · intro hlt
    unfold parse_flight_to_event at hparse
    rw [Option.map_eq_some'] at hparse
    obtain ⟨g, hg, hge⟩ := hparse
    obtain ⟨-, hdl, hdd, hal, had⟩ := fullFlightMatch_eq_some hg
    have heA : e.arrival_time = g.arrival_time := by rw [← hge]
    have heD : e.departure_time = g.departure_time := by rw [← hge]
    obtain ⟨a1, a2, a3, a4, hA⟩ := exists_four_of_length hal
    obtain ⟨d1, d2, d3, d4, hD⟩ := exists_four_of_length hdl
    rw [hA] at had
    rw [hD] at hdd
    rw [heA, hA] at hlt hmArr
    rw [heD, hD] at hlt hmDep
    rw [digitsToNat_four_split, digitsToNat_four_split] at hlt
    have hA2 : digitsToNat [a1, a2] ≤ 99 :=
      digitsToNat_two_le (had a1 (by simp)) (had a2 (by simp))
    have hD2 : digitsToNat [d1, d2] ≤ 99 :=
      digitsToNat_two_le (hdd d1 (by simp)) (hdd d2 (by simp))
    have htA : ([a1, a2, a3, a4] : List Char).take 2 = [a1, a2] := rfl
    have hdA : ([a1, a2, a3, a4] : List Char).drop 2 = [a3, a4] := rfl
    have htD : ([d1, d2, d3, d4] : List Char).take 2 = [d1, d2] := rfl
    have hdD : ([d1, d2, d3, d4] : List Char).drop 2 = [d3, d4] := rfl
    simp only [hdA, hdD] at hmArr hmDep
    simp only [set_arrival_datetime, set_departure_datetime, instantMinutes, heA, heD,
      hA, hD, htA, hdA, htD, hdD]
    omega

/-- C5 witness: the theorem applied to a concrete overnight record whose
arrival 0030 is numerically earlier than its departure 2055. -/
theorem c5_arrival_same_resolved_date_witness :
    (set_arrival_datetime
        { flight_no := "635".data, departure_airport := "WAW".data,
          destination_airport := "SOF".data, departure_time := "2055".data,
          arrival_time := "0030".data, day_of_month := 5,
          day_of_week := "Tue".data, period_start := ⟨2025, 8, 1⟩,
          period_end := ⟨2025, 8, 31⟩ } false).date
      = (set_departure_datetime
        { flight_no := "635".data, departure_airport := "WAW".data,
          destination_airport := "SOF".data, departure_time := "2055".data,
          arrival_time := "0030".data, day_of_month := 5,
          day_of_week := "Tue".data, period_start := ⟨2025, 8, 1⟩,
          period_end := ⟨2025, 8, 31⟩ } false).date ∧
    (digitsToNat ("0030".data : List Char) < digitsToNat ("2055".data : List Char) →
      instantMinutes (set_arrival_datetime
        { flight_no := "635".data, departure_airport := "WAW".data,
          destination_airport := "SOF".data, departure_time := "2055".data,
          arrival_time := "0030".data, day_of_month := 5,
          day_of_week := "Tue".data, period_start := ⟨2025, 8, 1⟩,
          period_end := ⟨2025, 8, 31⟩ } false)
        < instantMinutes (set_departure_datetime
        { flight_no := "635".data, departure_airport := "WAW".data,
          destination_airport := "SOF".data, departure_time := "2055".data,
          arrival_time := "0030".data, day_of_month := 5,
          day_of_week := "Tue".data, period_start := ⟨2025, 8, 1⟩,
          period_end := ⟨2025, 8, 31⟩ } false)) :=
  c5_arrival_same_resolved_date "5. Tue LO 635 WAW 2055 0030 SOF E75".data
    ⟨2025, 8, 1⟩ ⟨2025, 8, 31⟩ _ false (by decide) (by decide) (by decide)

/-- C6.  A malformed header line at index 1 — fewer than three
space-separated tokens, or date tokens that fail to parse — makes the full
pipeline return a RosterParsingError before any record is produced: the
result is an error, not a partial list. -/
theorem c6_malformed_header_aborts
    (l0 l1 : List Char) (rest : List (List Char))
    (h : (splitOnSpace l1).length < 3 ∨
         (∃ t1 t2, (splitOnSpace l1).get? 1 = some t1 ∧
            (splitOnSpace l1).get? 2 = some t2 ∧
            (parseDdMonYy t1 = none ∨ parseDdMonYy t2 = none))) :
    ∃ msg, parse_flights_from_pdf_lines (l0 :: l1 :: rest)
      = .error (.rosterParsing msg) := by
  rcases hs : splitOnSpace l1 with - | ⟨t0, ts1⟩
  · exact ⟨"Cannot parse period from PDF header. Expected format not found.",
      by simp [parse_flights_from_pdf_lines, parse_period, hs]⟩
  rcases ts1 with - | ⟨t1, ts2⟩
  · exact ⟨"Cannot parse period from PDF header. Expected format not found.",
      by simp [parse_flights_from_pdf_lines, parse_period, hs]⟩
  rcases ts2 with - | ⟨t2, ts3⟩
  · exact ⟨"Cannot parse period from PDF header. Expected format not found.",
      by simp [parse_flights_from_pdf_lines, parse_period, hs]⟩
  rcases h with hlen | ⟨t1x, t2x, hget1, hget2, hfail⟩
  · rw [hs] at hlen
    simp only [List.length_cons] at hlen
    omega
  · rw [hs] at hget1 hget2
    simp only [List.get?_cons_succ, List.get?_cons_zero, Option.some.injEq] at hget1 hget2
    subst hget1
    subst hget2
    rcases hfail with hf | hf
    · exact ⟨"Error parsing period dates: time data does not match format",
        by simp [parse_flights_from_pdf_lines, parse_period, hs, hf]⟩
    · rcases hp1 : parseDdMonYy t1 with - | d1
      · exact ⟨"Error parsing period dates: time data does not match format",
          by simp [parse_flights_from_pdf_lines, parse_period, hs, hp1]⟩
      · exact ⟨"Error parsing period dates: time data does not match format",
          by simp [parse_flights_from_pdf_lines, parse_period, hs, hp1, hf]⟩

/-- C6 witness: a concrete header whose line at index 1 has only two
tokens aborts the pipeline with a parsing error. -/
theorem c6_malformed_header_aborts_witness :
    ∃ msg, parse_flights_from_pdf_lines
        ["header".data, "bad header".data, ['x'], "1. Mon C/I WAW".data,
          "1. Mon C/O WAW".data]
      = .error (.rosterParsing msg) :=
  c6_malformed_header_aborts "header".data "bad header".data
    [['x'], "1. Mon C/I WAW".data, "1. Mon C/O WAW".data] (Or.inl (by decide))

/-- C2.  Modelled from the spec (the min-cutoff extraction is absent from
the copy of roster_parser.py under src, while its caller in app.py unpacks
it): when the pipeline succeeds, the returned min_cutoff_date is exactly
the %d%b%y parse of token 6 of header line 0 split on spaces, which then
has at least 7 tokens; and an insufficient token count or a failing date
parse makes the pipeline return a parsing error instead. -/
theorem c2_min_cutoff_extraction (l0 l1 : List Char) (rest : List (List Char)) :
    (∀ (evs : List FlightEvent) (mc : YMD),
       parse_flights_with_min_cutoff (l0 :: l1 :: rest) = .ok (evs, mc) →
       7 ≤ (splitOnSpace l0).length ∧
       ∃ t6, (splitOnSpace l0).get? 6 = some t6 ∧ parseDdMonYy t6 = some mc) ∧
    (((splitOnSpace l0).length < 7 ∨
        (∃ t6, (splitOnSpace l0).get? 6 = some t6 ∧ parseDdMonYy t6 = none)) →
      ∃ msg, parse_flights_with_min_cutoff (l0 :: l1 :: rest)
        = .error (.rosterParsing msg)) := by
  constructor
  · intro evs mc h
    rcases hp : parse_period_with_cutoff (l0 :: l1 :: rest) with e | ⟨s, e, mc'⟩
    · simp [parse_flights_with_min_cutoff, hp] at h
    · have hmc : mc' = mc := by
        simp only [parse_flights_with_min_cutoff, hp, Except.ok.injEq, Prod.mk.injEq] at h
        exact h.2
      subst hmc
      exact ppwc_ok_shape hp
  · intro h
    obtain ⟨msg, hmsg⟩ := @ppwc_err_of_l0 l0 l1 rest h
    exact ⟨msg, by simp [parse_flights_with_min_cutoff, hmsg]⟩

/-- C2 witness: on a concrete good header the pipeline returns the cutoff
date 2025-08-17 parsed from token 6 of line 0, and that token is found
where the theorem says. -/
theorem c2_min_cutoff_extraction_witness :
    7 ≤ (splitOnSpace "MY ROSTER planned 15:33 xxx yyy 17Aug25 09:13Page1".data).length ∧
    ∃ t6, (splitOnSpace "MY ROSTER planned 15:33 xxx yyy 17Aug25 09:13Page1".data).get? 6
        = some t6 ∧ parseDdMonYy t6 = some ⟨2025, 8, 17⟩ :=
  (c2_min_cutoff_extraction "MY ROSTER planned 15:33 xxx yyy 17Aug25 09:13Page1".data
      "Individual 01Aug25 31Aug25".data []).1 [] ⟨2025, 8, 17⟩ (by rfl)

/-- C3.  With no cutoff filter, the pipeline succeeds whenever the period
parses and returns exactly one record per line of the flushed sections
matching the full flight pattern; and appending to the input any tail
containing no check-out line (an unterminated trailing section) leaves the
flushed sections — and hence the records — unchanged. -/
theorem c3_record_count (lines : List (List Char)) (ps pe : YMD)
    (h : parse_period lines = .ok (ps, pe)) :
    (∃ evs, parse_flights_from_pdf_lines lines = .ok evs ∧
       evs.length = ((extract_work_sections lines).flatten.countP
         (fun e => (fullFlightMatch e).isSome))) ∧
    (∀ tail, 3 ≤ lines.length → (∀ l ∈ tail, hasSubstr coMark l = false) →
       extract_work_sections (lines ++ tail) = extract_work_sections lines) := by
  constructor
  · refine ⟨(extract_flights_from_sections (extract_work_sections lines)).filterMap
        (fun l => parse_flight_to_event l ps pe), ?_, ?_⟩
    · simp [parse_flights_from_pdf_lines, h]
    · rw [length_filterMap_of_isSome]
      · simp only [extract_flights_from_sections]
        rw [← List.countP_eq_length_filter]
        apply List.countP_congr
        intro x _
        constructor
        · intro hq
          rw [Bool.and_eq_true] at hq
          exact hq.2
        · intro hp
          rw [Bool.and_eq_true]
          exact ⟨fullFlightMatch_implies_LO hp, hp⟩
      · intro x hx
        rw [parse_flight_to_event_isSome]
        simp only [extract_flights_from_sections, List.mem_filter,
          Bool.and_eq_true] at hx
        exact hx.2.2
  · intro tail h3 htail
    simp only [extract_work_sections]
    rw [List.drop_append_of_le_length h3, List.foldl_append]
    exact foldl_sections_of_no_co tail _ htail

/-- C3 witness: on the concrete conforming input the pipeline returns as
many records as full-flight lines inside the flushed sections, and an
appended unterminated trailing section changes nothing. -/
theorem c3_record_count_witness :
    (∃ evs, parse_flights_from_pdf_lines c3DemoLines = .ok evs ∧
       evs.length = ((extract_work_sections c3DemoLines).flatten.countP
         (fun e => (fullFlightMatch e).isSome))) ∧
    extract_work_sections (c3DemoLines ++ c3DemoTail) = extract_work_sections c3DemoLines :=
  ⟨(c3_record_count c3DemoLines ⟨2025, 8, 1⟩ ⟨2025, 8, 31⟩ (by rfl)).1,
   (c3_record_count c3DemoLines ⟨2025, 8, 1⟩ ⟨2025, 8, 31⟩ (by rfl)).2
     c3DemoTail (by decide) (by decide)⟩

end FlightsApp
